import Mathlib

/-!
Verification of the socket HTTP server (`http_server.py`).

The pure request-handling core of the program is embedded shallowly:

* `parse_request` models `parse_request` (splitting the raw request into
  lines, the first line into three whitespace-separated tokens, each
  later non-empty line on every occurrence of `": "`);
* `resolve_uri` models `resolve_uri` over an explicit filesystem model
  (`FileSystem`), including the text-mode read (UTF-8 decode/encode with
  universal-newline translation) and the mime-type guess;
* `response_ok`, `response_not_found`, `response_method_not_allowed`,
  `not_implemented` model the response builders;
* `handleRequest` models the response-selection logic of the connection
  handler inside `server` (the `parse` / `resolve` / build-response
  block), with Python exceptions made explicit in `Except`.

Python exceptions that the code does not catch are surfaced as
`Except.error`; an escaping error models an exception propagating out of
the connection-handling block into the server loop.
-/

namespace HttpSrv

/-- The Python exceptions that can arise in the modelled code paths. -/
inductive PyExc where
  | valueError
  | nameError
  | unicodeDecodeError
deriving DecidableEq, Repr

/-- Characters on which Python `str.splitlines` breaks lines
(`\r\n` is additionally consumed as a single break by `pySplitlinesL`). -/
def isLineBreak (c : Char) : Bool :=
  c == '\n' || c == '\r' || c == '\x0b' || c == '\x0c' ||
  c == '\x1c' || c == '\x1d' || c == '\x1e' || c == '\u0085' ||
  c == '\u2028' || c == '\u2029'

/-- Whitespace characters of Python `str.split()` with no argument. -/
def isPySpace (c : Char) : Bool :=
  c == ' ' || c == '\t' || c == '\n' || c == '\r' || c == '\x0b' || c == '\x0c'

/-- Worker for `str.splitlines`: accumulates the current line (reversed)
and breaks on line-break characters, treating `\r\n` as one break.
A final line is emitted only if non-empty, as in Python. -/
def slAux : List Char → List Char → List (List Char)
  | [], acc => if acc.isEmpty then [] else [acc.reverse]
  | [c], acc => if isLineBreak c then [acc.reverse] else [(c :: acc).reverse]
  | c :: d :: rest, acc =>
    if c == '\r' && d == '\n' then acc.reverse :: slAux rest []
    else if isLineBreak c then acc.reverse :: slAux (d :: rest) []
    else slAux (d :: rest) (c :: acc)

/-- Python `request.splitlines()` on a character list. -/
def pySplitlinesL (l : List Char) : List (List Char) := slAux l []

/-- Worker for `str.split()` (no argument): split on runs of whitespace,
discarding empty tokens. -/
def pySplitWSAux : List Char → List Char → List (List Char)
  | [], acc => if acc.isEmpty then [] else [acc.reverse]
  | c :: rest, acc =>
    if isPySpace c then
      if acc.isEmpty then pySplitWSAux rest []
      else acc.reverse :: pySplitWSAux rest []
    else pySplitWSAux rest (c :: acc)

/-- Worker for `line.split(": ")`: split on every occurrence of the
two-character separator `": "`, scanning left to right. -/
def scsAux : List Char → List Char → List (List Char)
  | [], acc => [acc.reverse]
  | [c], acc => [(c :: acc).reverse]
  | c :: d :: rest, acc =>
    if c == ':' && d == ' ' then acc.reverse :: scsAux rest []
    else scsAux (d :: rest) (c :: acc)

/-- `true` iff the character list contains an occurrence of `": "`. -/
def hasCS : List Char → Bool
  | [] => false
  | c :: rest => (c == ':' && rest.head? == some ' ') || hasCS rest

/-- Worker for splitting a string on every `'/'` (Python `split("/")`). -/
def splitSlashAux : List Char → List Char → List String
  | [], acc => [String.mk acc.reverse]
  | c :: rest, acc =>
    if c == '/' then String.mk acc.reverse :: splitSlashAux rest []
    else splitSlashAux rest (c :: acc)

/-- Python `s.split("/")`. -/
def splitSlash (s : String) : List String := splitSlashAux s.toList []

/-- Python `uri.strip("/")`: drop leading and trailing `'/'` characters. -/
def pyStrip (s : String) : String :=
  String.mk (((s.toList.dropWhile (fun c => c == '/')).reverse.dropWhile
    (fun c => c == '/')).reverse)

/-- The result of `parse_request`: the Python falsy fall-through value
`False` for method/uri/version is `none`; the header dict is an
insertion-ordered association list (see `dictInsert`). -/
structure ParseResult where
  method : Option String
  uri : Option String
  version : Option String
  headers : List (String × String)
deriving DecidableEq, Repr

/-- Python `headers[key] = value` on a dict kept as an insertion-ordered
association list: an existing key keeps its position and gets the new
value, a new key is appended. -/
def dictInsert (d : List (String × String)) (k v : String) :
    List (String × String) :=
  if d.any (fun p => p.1 == k) then
    d.map (fun p => if p.1 == k then (k, v) else p)
  else d ++ [(k, v)]

/-- The header loop of `parse_request`: each non-empty line is split on
every occurrence of `": "`; unpacking into `key, value` succeeds only
for exactly two parts, otherwise a `ValueError` is raised (and is not
caught anywhere in the program). -/
def headersLoop : List (List Char) → List (String × String) →
    Except PyExc (List (String × String))
  | [], h => Except.ok h
  | line :: rest, h =>
    if line.isEmpty then headersLoop rest h
    else
      match scsAux line [] with
      | [k, v] => headersLoop rest (dictInsert h (String.mk k) (String.mk v))
      | _ => Except.error PyExc.valueError

/-- `parse_request` from `http_server.py`: split the raw request into
lines; unpack the first line into `method, uri, version` (a `ValueError`
when the token count is not three); collect headers. Only the
`IndexError` of an empty line list is caught, yielding the falsy
fall-through values. -/
def parse_request (request : String) : Except PyExc ParseResult :=
  match pySplitlinesL request.toList with
  | [] => Except.ok ⟨none, none, none, []⟩
  | first :: rest =>
    match pySplitWSAux first [] with
    | [m, u, v] =>
      match headersLoop rest [] with
      | Except.ok h =>
        Except.ok ⟨some (String.mk m), some (String.mk u),
          some (String.mk v), h⟩
      | Except.error e => Except.error e
    | _ => Except.error PyExc.valueError

/-- Continuation-byte check for UTF-8 (second and later bytes). -/
def contOk (c : Nat) : Bool := decide (128 ≤ c ∧ c ≤ 191)

/-- Range of the first continuation byte, which depends on the lead
byte (excludes overlong encodings, surrogates and values above
U+10FFFF, as Python's strict UTF-8 codec does). -/
def cont1Ok (b c : Nat) : Bool :=
  if b = 224 then decide (160 ≤ c ∧ c ≤ 191)
  else if b = 237 then decide (128 ≤ c ∧ c ≤ 159)
  else if b = 240 then decide (144 ≤ c ∧ c ≤ 191)
  else if b = 244 then decide (128 ≤ c ∧ c ≤ 143)
  else contOk c

/-- Validity of a byte sequence under Python's strict UTF-8 decoder;
`decode("utf-8")` raises `UnicodeDecodeError` exactly when this is
false. -/
def isValidUtf8 : List Nat → Bool
  | [] => true
  | b :: rest =>
    if b < 128 then isValidUtf8 rest
    else if 194 ≤ b ∧ b ≤ 223 then
      match rest with
      | c1 :: r => contOk c1 && isValidUtf8 r
      | [] => false
    else if 224 ≤ b ∧ b ≤ 239 then
      match rest with
      | c1 :: c2 :: r => cont1Ok b c1 && contOk c2 && isValidUtf8 r
      | _ => false
    else if 240 ≤ b ∧ b ≤ 244 then
      match rest with
      | c1 :: c2 :: c3 :: r =>
        cont1Ok b c1 && contOk c2 && contOk c3 && isValidUtf8 r
      | _ => false
    else false

/-- Universal-newline translation performed by reading a file in Python
text mode (`open(path, 'r')`): `\r\n` and lone `\r` both become `\n`.
Stated on bytes; for valid UTF-8 this agrees with the character-level
translation because `0x0D` and `0x0A` never occur as continuation
bytes. -/
def translateNewlines : List Nat → List Nat
  | [] => []
  | [b] => if b == 13 then [10] else [b]
  | b :: d :: rest =>
    if b == 13 then
      if d == 10 then 10 :: translateNewlines rest
      else 10 :: translateNewlines (d :: rest)
    else b :: translateNewlines (d :: rest)

/-- A filesystem entry: a directory or a regular file. The payload of
`dir` is the byte output of the external `ls -l` listing command for
that directory (an external collaborator of the program, deterministic
for a fixed directory state); the payload of `file` is the file's
on-disk byte content. -/
inductive FSEntry where
  | dir : List Nat → FSEntry
  | file : List Nat → FSEntry
deriving DecidableEq, Repr

/-- The filesystem visible to the server: a finite map from path
strings to entries. `os.path.exists` is membership, `os.path.isdir`
checks for a `dir` entry, and reading a file returns its stored
bytes. -/
def FileSystem : Type := List (String × FSEntry)

/-- Path lookup in the filesystem model. -/
def fsLookup (fs : FileSystem) (p : String) : Option FSEntry :=
  List.lookup p fs

/-- The process-wide webroot constant of `http_server.py`. -/
def WEBROOT : String := "webroot"

/-- `os.path.join(WEBROOT, uri.strip("/"))`: since the stripped URI
never starts with `'/'`, the join always inserts a single separator
(also when the stripped URI is empty, where Python yields
`"webroot/"`). -/
def effectiveUri (uri : String) : String :=
  WEBROOT ++ "/" ++ pyStrip uri

/-- UTF-8/ASCII byte view of a string (all strings that reach this
function in the model are ASCII, where `Char.toNat` is the byte). -/
def strBytes (s : String) : List Nat := s.toList.map Char.toNat

/-- Python `bytes_sep.join(list_of_bytes)`. -/
def bytesJoin (sep : List Nat) : List (List Nat) → List Nat
  | [] => []
  | [x] => x
  | x :: y :: xs => x ++ sep ++ bytesJoin sep (y :: xs)

/-- `response_ok` from `http_server.py`: joins the status line, the
Content-Type header, an empty element and the body with `\r\n`. -/
def response_ok (body : List Nat) (mimetype : List Nat) : List Nat :=
  bytesJoin [13, 10]
    [strBytes "HTTP/1.1 200 OK",
     strBytes "Content-Type: " ++ mimetype,
     [],
     body]

/-- `response_method_not_allowed` from `http_server.py`. -/
def response_method_not_allowed : List Nat :=
  bytesJoin [13, 10] [strBytes "HTTP/1.1 405 Method Not Allowed"]

/-- `response_not_found` from `http_server.py`. -/
def response_not_found : List Nat :=
  bytesJoin [13, 10] [strBytes "HTTP/1.1 404 Not Found"]

/-- `not_implemented` from `http_server.py`. -/
def not_implemented : List Nat :=
  bytesJoin [13, 10] [strBytes "HTTP/1.1 501 Not Implemented"]

/-- The base name of a path (the segment after the last `'/'`). -/
def lastComponent (p : String) : List Char :=
  (p.toList.reverse.takeWhile (fun c => !(c == '/'))).reverse

/-- The extension used by `mimetypes.guess_type`: the part of the base
name after its last dot, ignoring leading dots (as `posixpath.splitext`
does), lowercased; empty when the base name has no such dot. -/
def extOf (p : String) : String :=
  let trimmed := (lastComponent p).dropWhile (fun c => c == '.')
  if trimmed.any (fun c => c == '.') then
    String.mk (((trimmed.reverse.takeWhile (fun c => !(c == '.'))).reverse).map
      Char.toLower)
  else ""

/-- `mimetypes.guess_type(path)[0]`: the standard extension-to-media
type table of the Python library (an external collaborator), restricted
to common extensions; `none` models Python's `None` for an unknown
extension. -/
def guess_type (p : String) : Option String :=
  match extOf p with
  | "html" => some "text/html"
  | "htm" => some "text/html"
  | "txt" => some "text/plain"
  | "css" => some "text/css"
  | "csv" => some "text/csv"
  | "xml" => some "text/xml"
  | "py" => some "text/x-python"
  | "png" => some "image/png"
  | "jpg" => some "image/jpeg"
  | "jpeg" => some "image/jpeg"
  | "gif" => some "image/gif"
  | "pdf" => some "application/pdf"
  | "json" => some "application/json"
  | "zip" => some "application/zip"
  | _ => none

/-- `resolve_uri` from `http_server.py` over the filesystem model.
Returns the pair `(content, mime_type)` with Python's falsy values
(`False` content, `None` mime type) as `none`; raises `NameError` for a
missing path, `UnicodeDecodeError` for a text file that is not valid
UTF-8, and would raise `ValueError` if a guessed type did not split on
`"/"` into exactly two parts. -/
def resolve_uri (fs : FileSystem) (uri : String) :
    Except PyExc (Option (List Nat) × Option (List Nat)) :=
  let effective_uri := effectiveUri uri
  match fsLookup fs effective_uri with
  | none => Except.error PyExc.nameError
  | some (FSEntry.dir listing) =>
    Except.ok (some listing, some (strBytes "text/plain"))
  | some (FSEntry.file content) =>
    match guess_type effective_uri with
    | none => Except.ok (none, none)
    | some mime_type =>
      match splitSlash mime_type with
      | [base_type, _] =>
        if base_type = "text" then
          if isValidUtf8 content then
            Except.ok (some (translateNewlines content),
              some (strBytes mime_type))
          else Except.error PyExc.unicodeDecodeError
        else Except.ok (some content, some (strBytes mime_type))
      | _ => Except.error PyExc.valueError

/-- Python truthiness of `method` in the handler: `False` or the empty
string are falsy. -/
def pyTruthyStr : Option String → Bool
  | none => false
  | some s => !s.isEmpty

/-- Python truthiness of `mime_type` in the handler: `None` or empty
bytes are falsy. -/
def pyTruthyBytes : Option (List Nat) → Bool
  | none => false
  | some b => !b.isEmpty

/-- The response-selection block of `server` (the connection handler):
parse the request, answer 405 on a falsy method, resolve the URI,
answer 404 on `NameError`, 501 on a falsy mime type, 200 otherwise.
Any other exception (`ValueError`, `UnicodeDecodeError`) is not caught
and escapes to the server loop. -/
def handleRequest (fs : FileSystem) (request : String) :
    Except PyExc (List Nat) :=
  match parse_request request with
  | Except.error e => Except.error e
  | Except.ok pr =>
    if pyTruthyStr pr.method then
      match resolve_uri fs (pr.uri.getD "") with
      | Except.error PyExc.nameError => Except.ok response_not_found
      | Except.error e => Except.error e
      | Except.ok (content, mime_type) =>
        if pyTruthyBytes mime_type then
          Except.ok (response_ok (content.getD []) (mime_type.getD []))
        else Except.ok not_implemented
    else Except.ok response_method_not_allowed

/-- One step of POSIX path normalization (`posixpath.normpath` on a
relative path): empty and `"."` segments vanish, `".."` pops the last
kept segment when there is a poppable one, otherwise it is kept. -/
def normStep (acc : List String) (s : String) : List String :=
  if s = "" ∨ s = "." then acc
  else if s = ".." then
    match acc.getLast? with
    | none => [".."]
    | some t => if t = ".." then acc ++ [".."] else acc.dropLast
  else acc ++ [s]

/-- Logical (lexical) normalization of a relative path into its
segment list. -/
def normalizeSegments (p : String) : List String :=
  (splitSlash p).foldl normStep []

/-- Whether a path stays logically under the webroot directory: its
normalized segment list starts with `WEBROOT`. -/
def isUnderWebroot (p : String) : Bool :=
  match normalizeSegments p with
  | s :: _ => s == WEBROOT
  | [] => false

/-- The bytes of a response after the first `\r\n\r\n` separator — the
body of the response; everything when no separator occurs. -/
def dropThroughBlank : List Nat → List Nat
  | [] => []
  | b :: rest =>
    if b == 13 && rest.take 3 == [10, 13, 10] then rest.drop 3
    else dropThroughBlank rest

/-! ### Helper lemmas about the embedded string and byte operations -/

theorem toList_mk (l : List Char) : (String.mk l).toList = l := rfl

theorem toList_append (s t : String) :
    (s ++ t).toList = s.toList ++ t.toList := by
  simp [String.toList, String.data_append]

theorem translateNewlines_of_no_cr :
    ∀ l : List Nat, 13 ∉ l → translateNewlines l = l := by
  intro l h
  induction l with
  | nil => rfl
  | cons b rest ih =>
    have hb : b ≠ 13 := fun hb => h (hb ▸ List.mem_cons_self b rest)
    have hrest : 13 ∉ rest := fun hm => h (List.mem_cons_of_mem b hm)
    cases rest with
    | nil => simp [translateNewlines, hb]
    | cons d r =>
      simp only [translateNewlines, beq_iff_eq, hb, if_false]
      exact congrArg (b :: ·) (ih hrest)

theorem slAux_append (l : List Char) :
    ∀ (rest : List Char) (acc : List Char),
      (∀ c ∈ l, isLineBreak c = false) →
      slAux (l ++ '\n' :: rest) acc = (acc.reverse ++ l) :: slAux rest [] := by
  induction l with
  | nil =>
    intro rest acc _
    cases rest with
    | nil => simp [slAux, isLineBreak]
    | cons d r => simp [slAux, isLineBreak]
  | cons c l' ih =>
    intro rest acc h
    have hc : isLineBreak c = false := h c (List.mem_cons_self c l')
    have h' : ∀ x ∈ l', isLineBreak x = false :=
      fun x hx => h x (List.mem_cons_of_mem c hx)
    have hcr : (c == '\r') = false := by
      by_contra hne
      have : c = '\r' := by
        have := Bool.of_not_eq_false hne
        exact eq_of_beq this
      rw [this] at hc
      simp [isLineBreak] at hc
    obtain ⟨d, rest2, hd⟩ : ∃ d rest2, l' ++ '\n' :: rest = d :: rest2 := by
      cases l' with
      | nil => exact ⟨'\n', rest, rfl⟩
      | cons e l'' => exact ⟨e, l'' ++ '\n' :: rest, rfl⟩
    show slAux (c :: (l' ++ '\n' :: rest)) acc = _
    rw [hd]
    simp only [slAux, hcr, Bool.false_and, hc, if_false, Bool.false_eq_true]
    rw [← hd, ih rest (c :: acc) h']
    simp

theorem slAux_last (l : List Char) :
    ∀ acc : List Char, (∀ c ∈ l, isLineBreak c = false) →
      acc ≠ [] ∨ l ≠ [] → slAux l acc = [acc.reverse ++ l] := by
  induction l with
  | nil =>
    intro acc _ hne
    have : acc ≠ [] := by tauto
    simp [slAux, this]
  | cons c l' ih =>
    intro acc h _
    have hc : isLineBreak c = false := h c (List.mem_cons_self c l')
    have h' : ∀ x ∈ l', isLineBreak x = false :=
      fun x hx => h x (List.mem_cons_of_mem c hx)
    have hcr : (c == '\r') = false := by
      by_contra hne
      have : c = '\r' := eq_of_beq (Bool.of_not_eq_false hne)
      rw [this] at hc
      simp [isLineBreak] at hc
    cases l' with
    | nil => simp [slAux, hc]
    | cons d r =>
      simp only [slAux, hcr, Bool.false_and, hc, if_false, Bool.false_eq_true]
      rw [ih (c :: acc) h' (Or.inl (by simp))]
      simp

theorem scsAux_no_sep (v : List Char) :
    ∀ acc : List Char, hasCS v = false →
      scsAux v acc = [acc.reverse ++ v] := by
  induction v with
  | nil => intro acc _; simp [scsAux]
  | cons c v' ih =>
    intro acc h
    rw [hasCS] at h
    have h1 : (c == ':' && v'.head? == some ' ') = false :=
      (Bool.or_eq_false_iff.mp h).1
    have h2 : hasCS v' = false := (Bool.or_eq_false_iff.mp h).2
    cases v' with
    | nil => simp [scsAux]
    | cons d r =>
      have hcd : (c == ':' && d == ' ') = false := by
        simpa using h1
      simp only [scsAux, hcd, if_false, Bool.false_eq_true]
      rw [ih (c :: acc) h2]
      simp

theorem scsAux_append (k : List Char) :
    ∀ (v : List Char) (acc : List Char), hasCS k = false →
      scsAux (k ++ ':' :: ' ' :: v) acc =
        (acc.reverse ++ k) :: scsAux v [] := by
  induction k with
  | nil => intro v acc _; simp [scsAux]
  | cons c k' ih =>
    intro v acc h
    rw [hasCS] at h
    have h1 : (c == ':' && k'.head? == some ' ') = false :=
      (Bool.or_eq_false_iff.mp h).1
    have h2 : hasCS k' = false := (Bool.or_eq_false_iff.mp h).2
    cases k' with
    | nil =>
      simp [scsAux]
    | cons e k'' =>
      have hce : (c == ':' && e == ' ') = false := by simpa using h1
      simp only [List.cons_append, scsAux, hce, if_false, Bool.false_eq_true,
        List.append_eq]
      rw [← List.cons_append, ih v (c :: acc) h2]
      simp

theorem foldl_normStep_head (segs : List String) :
    ∀ acc : List String, acc ≠ [] → (∀ s ∈ segs, s ≠ "..") →
      segs.foldl normStep acc ≠ [] ∧
      (segs.foldl normStep acc).head? = acc.head? := by
  induction segs with
  | nil => intro acc hne _; exact ⟨hne, rfl⟩
  | cons s segs' ih =>
    intro acc hne h
    have hs : s ≠ ".." := h s (List.mem_cons_self s segs')
    have h' : ∀ x ∈ segs', x ≠ ".." :=
      fun x hx => h x (List.mem_cons_of_mem s hx)
    have hstep : normStep acc s ≠ [] ∧ (normStep acc s).head? = acc.head? := by
      by_cases hdot : s = "" ∨ s = "."
      · simp [normStep, hdot]
        exact hne
      · have : normStep acc s = acc ++ [s] := by
          simp [normStep, hdot, hs]
        rw [this]
        constructor
        · simp
        · cases acc with
          | nil => exact absurd rfl hne
          | cons a t => rfl
    have := ih (normStep acc s) hstep.1 h'
    exact ⟨this.1, by rw [List.foldl_cons, this.2, hstep.2]⟩

theorem splitSlashAux_webroot (l : List Char) :
    splitSlashAux ("webroot/".toList ++ l) [] =
      "webroot" :: splitSlashAux l [] := by
  show splitSlashAux (['w', 'e', 'b', 'r', 'o', 'o', 't', '/'] ++ l) [] = _
  simp [splitSlashAux]

theorem dropThroughBlank_append (hd : List Nat) :
    ∀ l : List Nat, 13 ∉ hd →
      dropThroughBlank (hd ++ l) = dropThroughBlank l := by
  induction hd with
  | nil => intro l _; rfl
  | cons b hd' ih =>
    intro l h
    have hb : b ≠ 13 := fun hb => h (hb ▸ List.mem_cons_self b hd')
    have h' : 13 ∉ hd' := fun hm => h (List.mem_cons_of_mem b hm)
    simp only [List.cons_append, dropThroughBlank]
    have : (b == 13) = false := by simpa using hb
    rw [this]
    simpa using ih l h'

theorem dropThroughBlank_at_sep (l : List Nat) :
    dropThroughBlank (13 :: 10 :: 13 :: 10 :: l) = l := rfl

theorem dropThroughBlank_response_ok_png (content : List Nat) :
    dropThroughBlank (response_ok content (strBytes "image/png")) = content := by
  have h0 : response_ok content (strBytes "image/png") =
      strBytes "HTTP/1.1 200 OK" ++
        (13 :: 10 :: (strBytes "Content-Type: image/png" ++
          (13 :: 10 :: 13 :: 10 :: content))) := by
    simp [response_ok, bytesJoin, strBytes]
  rw [h0, dropThroughBlank_append _ _ (by decide)]
  show dropThroughBlank (13 :: (10 :: (strBytes "Content-Type: image/png" ++
    (13 :: 10 :: 13 :: 10 :: content)))) = content
  rw [dropThroughBlank]
  have hcond : ((13 : Nat) == 13 &&
      (10 :: (strBytes "Content-Type: image/png" ++
        (13 :: 10 :: 13 :: 10 :: content))).take 3 == [10, 13, 10]) = false := by
    rfl
  rw [hcond]
  simp only [Bool.false_eq_true, if_false]
  rw [dropThroughBlank]
  have hcond2 : ((10 : Nat) == 13 &&
      ((strBytes "Content-Type: image/png" ++
        (13 :: 10 :: 13 :: 10 :: content))).take 3 == [10, 13, 10]) = false := by
    rfl
  rw [hcond2]
  simp only [Bool.false_eq_true, if_false]
  rw [dropThroughBlank_append _ _ (by decide)]
  exact dropThroughBlank_at_sep content

/-! ### Claim theorems -/

/-- C2, counterexample: the URI `/../secret.txt` resolves to the path
`webroot/../secret.txt`, which normalizes to `secret.txt`, outside the
webroot — the claim that every URI stays logically under WEBROOT is
false. -/
theorem c2_counterexample :
    isUnderWebroot (effectiveUri "/../secret.txt") = false := by decide

/-- C2 (amended): for every URI none of whose slash-separated segments
(after stripping leading/trailing slashes) is `".."`, the path computed
by the URI resolver stays logically under the WEBROOT root directory;
URIs containing `".."` segments can escape it. -/
theorem no_dotdot_stays_under_webroot (uri : String)
    (h : ∀ s ∈ splitSlash (pyStrip uri), s ≠ "..") :
    isUnderWebroot (effectiveUri uri) = true := by
  have hTL : (effectiveUri uri).toList =
      "webroot/".toList ++ (pyStrip uri).toList := rfl
  have hss : splitSlash (effectiveUri uri) =
      "webroot" :: splitSlash (pyStrip uri) := by
    show splitSlashAux (effectiveUri uri).toList [] = _
    rw [hTL, splitSlashAux_webroot]
    rfl
  have hinit : normStep [] "webroot" = ["webroot"] := by simp [normStep]
  have hfold := foldl_normStep_head (splitSlash (pyStrip uri)) ["webroot"]
    (by simp) h
  have hn : normalizeSegments (effectiveUri uri) =
      (splitSlash (pyStrip uri)).foldl normStep ["webroot"] := by
    rw [normalizeSegments, hss, List.foldl_cons, hinit]
  obtain ⟨t, ht⟩ : ∃ t, normalizeSegments (effectiveUri uri) =
      "webroot" :: t := by
    rcases hx : (splitSlash (pyStrip uri)).foldl normStep ["webroot"] with
      _ | ⟨a, t⟩
    · exact absurd hx hfold.1
    · refine ⟨t, ?_⟩
      rw [hn, hx]
      have := hfold.2
      rw [hx] at this
      simp only [List.head?_cons, List.head?] at this
      exact congrArg (· :: t) (Option.some.inj this)
  unfold isUnderWebroot
  rw [ht]
  simp [WEBROOT]

/-- C2, witness for the amended theorem at the URI
`/images/sample.png`. -/
theorem no_dotdot_stays_under_webroot_witness :
    isUnderWebroot (effectiveUri "/images/sample.png") = true :=
  no_dotdot_stays_under_webroot "/images/sample.png" (by decide)

/-- C5: parsing the empty request string yields the absent sentinel for
method, uri and version with an empty header mapping, and the
connection handler then answers 405 Method Not Allowed without
resolving any URI. -/
theorem empty_request_gives_405 (fs : FileSystem) :
    parse_request "" = Except.ok ⟨none, none, none, []⟩ ∧
    handleRequest fs "" = Except.ok response_method_not_allowed :=
  ⟨rfl, rfl⟩

/-- C9: the 404, 405 and 501 builders each produce exactly their
status-line bytes — no header line, no body, and no CR/LF at all (in
particular no blank-line terminator). -/
theorem error_responses_status_line_only :
    response_not_found = strBytes "HTTP/1.1 404 Not Found" ∧
    response_method_not_allowed =
      strBytes "HTTP/1.1 405 Method Not Allowed" ∧
    not_implemented = strBytes "HTTP/1.1 501 Not Implemented" ∧
    (∀ b ∈ response_not_found, b ≠ 13 ∧ b ≠ 10) ∧
    (∀ b ∈ response_method_not_allowed, b ≠ 13 ∧ b ≠ 10) ∧
    (∀ b ∈ not_implemented, b ≠ 13 ∧ b ≠ 10) := by decide

/-- C10: a request with at least one line whose first line does not
split into exactly three whitespace-separated tokens makes
`parse_request` raise an uncaught `ValueError` (from unpacking the
split) instead of returning the absent sentinels. -/
theorem malformed_first_line_raises (request : String) (first : List Char)
    (rest : List (List Char))
    (hl : pySplitlinesL request.toList = first :: rest)
    (h3 : (pySplitWSAux first []).length ≠ 3) :
    parse_request request = Except.error PyExc.valueError := by
  unfold parse_request
  rw [hl]
  rcases hw : pySplitWSAux first [] with _ | ⟨a, _ | ⟨b, _ | ⟨c, _ | ⟨d, t⟩⟩⟩⟩
  · simp [hw]
  · simp [hw]
  · simp [hw]
  · rw [hw] at h3
    simp at h3
  · simp [hw]

/-- C10, witness: the request `"GET /"` (two tokens on its only line)
raises `ValueError`. -/
theorem malformed_first_line_raises_witness :
    parse_request "GET /" = Except.error PyExc.valueError :=
  malformed_first_line_raises "GET /" "GET /".toList [] (by decide) (by decide)

/-- C1, counterexample: a request whose header line lacks the `": "`
separator makes the connection handler raise an uncaught `ValueError`
instead of producing a response, contradicting the claim that all
parsing failures are recovered at the Connection Handler level. -/
theorem c1_counterexample :
    handleRequest [] "GET / HTTP/1.1\nNoSep" =
      Except.error PyExc.valueError := rfl

/-- C1 (amended): the empty-request and not-found failures are
recovered by the connection handler, but not all parsing failures are:
for every filesystem state, a request whose header line lacks the
`": "` separator raises a `ValueError` that propagates out of the
connection-handling block to the Server Loop. -/
theorem header_line_without_sep_propagates (fs : FileSystem)
    (line : List Char) (hne : line ≠ [])
    (hlb : ∀ c ∈ line, isLineBreak c = false)
    (hcs : hasCS line = false) :
    handleRequest fs
        (String.mk ("GET / HTTP/1.1".toList ++ '\n' :: line)) =
      Except.error PyExc.valueError := by
  have hsl : pySplitlinesL ("GET / HTTP/1.1".toList ++ '\n' :: line) =
      "GET / HTTP/1.1".toList :: [line] := by
    unfold pySplitlinesL
    rw [slAux_append _ _ _ (by decide), slAux_last _ _ hlb (Or.inr hne)]
    simp
  have hisE : line.isEmpty = false := by
    cases line with
    | nil => exact absurd rfl hne
    | cons a t => rfl
  have hscs : scsAux line [] = [line] := by
    rw [scsAux_no_sep line [] hcs]
    simp
  have hws : pySplitWSAux "GET / HTTP/1.1".toList [] =
      ["GET".toList, "/".toList, "HTTP/1.1".toList] := by decide
  have hhl : headersLoop [line] [] = Except.error PyExc.valueError := by
    simp only [headersLoop, hisE, Bool.false_eq_true, if_false, hscs]
  have hparse : parse_request
      (String.mk ("GET / HTTP/1.1".toList ++ '\n' :: line)) =
      Except.error PyExc.valueError := by
    unfold parse_request
    rw [toList_mk, hsl]
    simp only [hws, hhl]
  simp only [handleRequest, hparse]

/-- C1, witness for the amended theorem: the header line `NoSep` in an
otherwise well-formed request makes the handler raise `ValueError` on
the empty filesystem. -/
theorem header_line_without_sep_propagates_witness :
    handleRequest []
        (String.mk ("GET / HTTP/1.1".toList ++ '\n' :: "NoSep".toList)) =
      Except.error PyExc.valueError :=
  header_line_without_sep_propagates [] "NoSep".toList (by decide)
    (by decide) (by decide)

/-- C4, counterexample: a header line whose value itself contains
`": "` is not stored with a once-split value; `line.split(": ")`
produces three parts and the two-name unpacking raises an uncaught
`ValueError`. -/
theorem c4_counterexample :
    parse_request "GET / HTTP/1.1\nA: b: c" =
      Except.error PyExc.valueError := rfl

/-- C4 (amended): each non-empty header line is split on EVERY
occurrence of `": "` and must yield exactly two parts — a line with a
single separator has its name and value stored verbatim, with the last
occurrence of a duplicate name winning, but a line whose value itself
contains `": "` raises an uncaught `ValueError` instead of being
stored. -/
theorem header_split_every_sep_last_wins (k v1 v2 : List Char)
    (hk : hasCS k = false) (hv1 : hasCS v1 = false)
    (hv2 : hasCS v2 = false)
    (hbk : ∀ c ∈ k, isLineBreak c = false)
    (hb1 : ∀ c ∈ v1, isLineBreak c = false)
    (hb2 : ∀ c ∈ v2, isLineBreak c = false) :
    parse_request (String.mk ("GET / HTTP/1.1".toList ++ '\n' ::
        ((k ++ ':' :: ' ' :: v1) ++ '\n' :: (k ++ ':' :: ' ' :: v2)))) =
      Except.ok ⟨some "GET", some "/", some "HTTP/1.1",
        [(String.mk k, String.mk v2)]⟩ ∧
    parse_request (String.mk ("GET / HTTP/1.1".toList ++ '\n' ::
        (k ++ ':' :: ' ' :: (v1 ++ ':' :: ' ' :: v2)))) =
      Except.error PyExc.valueError := by
  have hl1 : ∀ c ∈ k ++ ':' :: ' ' :: v1, isLineBreak c = false := by
    intro c hc
    rcases List.mem_append.mp hc with h | h
    · exact hbk c h
    · rcases List.mem_cons.mp h with rfl | h
      · decide
      · rcases List.mem_cons.mp h with rfl | h
        · decide
        · exact hb1 c h
  have hl2 : ∀ c ∈ k ++ ':' :: ' ' :: v2, isLineBreak c = false := by
    intro c hc
    rcases List.mem_append.mp hc with h | h
    · exact hbk c h
    · rcases List.mem_cons.mp h with rfl | h
      · decide
      · rcases List.mem_cons.mp h with rfl | h
        · decide
        · exact hb2 c h
  have hl3 : ∀ c ∈ k ++ ':' :: ' ' :: (v1 ++ ':' :: ' ' :: v2),
      isLineBreak c = false := by
    intro c hc
    rcases List.mem_append.mp hc with h | h
    · exact hbk c h
    · rcases List.mem_cons.mp h with rfl | h
      · decide
      · rcases List.mem_cons.mp h with rfl | h
        · decide
        · rcases List.mem_append.mp h with h | h
          · exact hb1 c h
          · rcases List.mem_cons.mp h with rfl | h
            · decide
            · rcases List.mem_cons.mp h with rfl | h
              · decide
              · exact hb2 c h
  have hE1 : (k ++ ':' :: ' ' :: v1).isEmpty = false := by
    cases k <;> rfl
  have hE2 : (k ++ ':' :: ' ' :: v2).isEmpty = false := by
    cases k <;> rfl
  have hE3 : (k ++ ':' :: ' ' :: (v1 ++ ':' :: ' ' :: v2)).isEmpty
      = false := by
    cases k <;> rfl
  have hws : pySplitWSAux "GET / HTTP/1.1".toList [] =
      ["GET".toList, "/".toList, "HTTP/1.1".toList] := by decide
  have hscs1 : scsAux (k ++ ':' :: ' ' :: v1) [] = [k, v1] := by
    rw [scsAux_append k v1 [] hk, scsAux_no_sep v1 [] hv1]
    simp
  have hscs2 : scsAux (k ++ ':' :: ' ' :: v2) [] = [k, v2] := by
    rw [scsAux_append k v2 [] hk, scsAux_no_sep v2 [] hv2]
    simp
  have hscs3 : scsAux (k ++ ':' :: ' ' :: (v1 ++ ':' :: ' ' :: v2)) [] =
      [k, v1, v2] := by
    rw [scsAux_append k _ [] hk, scsAux_append v1 v2 [] hv1,
      scsAux_no_sep v2 [] hv2]
    simp
  constructor
  · have hsl : pySplitlinesL ("GET / HTTP/1.1".toList ++ '\n' ::
        ((k ++ ':' :: ' ' :: v1) ++ '\n' :: (k ++ ':' :: ' ' :: v2))) =
        "GET / HTTP/1.1".toList :: (k ++ ':' :: ' ' :: v1) ::
          [k ++ ':' :: ' ' :: v2] := by
      unfold pySplitlinesL
      rw [slAux_append _ _ _ (by decide), slAux_append _ _ _ hl1,
        slAux_last _ _ hl2 (Or.inr (by simp))]
      simp
    have hHL : headersLoop
        [k ++ ':' :: ' ' :: v1, k ++ ':' :: ' ' :: v2] [] =
        Except.ok [(String.mk k, String.mk v2)] := by
      simp only [headersLoop, hE1, hE2, Bool.false_eq_true, if_false,
        hscs1, hscs2]
      simp [dictInsert]
    unfold parse_request
    rw [toList_mk, hsl]
    simp only [hws, hHL]
    rfl
  · have hsl : pySplitlinesL ("GET / HTTP/1.1".toList ++ '\n' ::
        (k ++ ':' :: ' ' :: (v1 ++ ':' :: ' ' :: v2))) =
        "GET / HTTP/1.1".toList ::
          [k ++ ':' :: ' ' :: (v1 ++ ':' :: ' ' :: v2)] := by
      unfold pySplitlinesL
      rw [slAux_append _ _ _ (by decide),
        slAux_last _ _ hl3 (Or.inr (by simp))]
      simp
    have hHL : headersLoop
        [k ++ ':' :: ' ' :: (v1 ++ ':' :: ' ' :: v2)] [] =
        Except.error PyExc.valueError := by
      simp only [headersLoop, hE3, Bool.false_eq_true, if_false, hscs3]
    unfold parse_request
    rw [toList_mk, hsl]
    simp only [hws, hHL]

/-- C4, witness for the amended theorem: duplicate `Host` headers keep
the last value, and the line `Host: b: c` raises `ValueError`. -/
theorem header_split_every_sep_last_wins_witness :
    parse_request (String.mk ("GET / HTTP/1.1".toList ++ '\n' ::
        (("Host".toList ++ ':' :: ' ' :: "a".toList) ++ '\n' ::
          ("Host".toList ++ ':' :: ' ' :: "b".toList)))) =
      Except.ok ⟨some "GET", some "/", some "HTTP/1.1",
        [(String.mk "Host".toList, String.mk "b".toList)]⟩ ∧
    parse_request (String.mk ("GET / HTTP/1.1".toList ++ '\n' ::
        ("Host".toList ++ ':' :: ' ' ::
          ("a".toList ++ ':' :: ' ' :: "b".toList)))) =
      Except.error PyExc.valueError :=
  header_split_every_sep_last_wins "Host".toList "a".toList "b".toList
    (by decide) (by decide) (by decide) (by decide) (by decide) (by decide)

/-- C3, counterexample: the text file `webroot/a.txt` with on-disk
bytes `"H\r\n"` is returned as `"H\n"` — the text-mode read translates
CRLF to LF, so the result is not the on-disk content byte-for-byte. -/
theorem c3_counterexample :
    resolve_uri [("webroot/a.txt", FSEntry.file [72, 13, 10])] "/a.txt" =
      Except.ok (some [72, 10], some (strBytes "text/plain")) ∧
    [72, 10] ≠ [72, 13, 10] := ⟨rfl, by decide⟩

/-- C3 (amended): for every URI mapping to an existing regular file
whose guessed media type has primary category `text`, when the file's
bytes are valid UTF-8 and contain no carriage-return byte (0x0D),
`resolve_uri` returns exactly the on-disk bytes together with that
`text/*` media type; files containing CR bytes have their newlines
translated by the text-mode read, so byte-for-byte equality fails for
them. -/
theorem text_file_exact_bytes (fs : FileSystem) (u : String)
    (content : List Nat) (mt sub : String)
    (hf : fsLookup fs (effectiveUri u) = some (FSEntry.file content))
    (hg : guess_type (effectiveUri u) = some mt)
    (hs : splitSlash mt = ["text", sub])
    (hv : isValidUtf8 content = true)
    (hcr : 13 ∉ content) :
    resolve_uri fs u = Except.ok (some content, some (strBytes mt)) := by
  simp only [resolve_uri, hf, hg, hs]
  simp [hv, translateNewlines_of_no_cr content hcr]

/-- C3, witness for the amended theorem: a CR-free ASCII text file is
returned byte-for-byte with media type `text/plain`. -/
theorem text_file_exact_bytes_witness :
    resolve_uri [("webroot/a.txt", FSEntry.file [104, 105, 10])] "/a.txt" =
      Except.ok (some [104, 105, 10], some (strBytes "text/plain")) :=
  text_file_exact_bytes [("webroot/a.txt", FSEntry.file [104, 105, 10])]
    "/a.txt" [104, 105, 10] "text/plain" "plain"
    (by decide) (by decide) (by decide) (by decide) (by decide)

/-- C6: a URI mapping to an existing regular file with no determinable
media type makes `resolve_uri` return the unknown sentinels for both
content and media type (not the not-found signal), and the connection
handler answers 501 Not Implemented. -/
theorem unknown_media_type_gives_501 (fs : FileSystem) (req : String)
    (m u v : String) (hdrs : List (String × String)) (content : List Nat)
    (hp : parse_request req = Except.ok ⟨some m, some u, some v, hdrs⟩)
    (hm : m ≠ "")
    (hf : fsLookup fs (effectiveUri u) = some (FSEntry.file content))
    (hg : guess_type (effectiveUri u) = none) :
    resolve_uri fs u = Except.ok (none, none) ∧
    handleRequest fs req = Except.ok not_implemented := by
  have h1 : resolve_uri fs u = Except.ok (none, none) := by
    simp only [resolve_uri, hf, hg]
  have hms : pyTruthyStr (some m) = true := by
    have hie : m.isEmpty = false := by
      cases h : m.isEmpty with
      | false => rfl
      | true => exact absurd ((String.isEmpty_iff m).mp h) hm
    simp [pyTruthyStr, hie]
  refine ⟨h1, ?_⟩
  simp [handleRequest, hp, hms, h1, pyTruthyBytes]

/-- C6, witness: an extensionless file `webroot/mystery` yields the
unknown sentinels and a 501 response. -/
theorem unknown_media_type_gives_501_witness :
    resolve_uri [("webroot/mystery", FSEntry.file [1, 2])] "/mystery" =
      Except.ok (none, none) ∧
    handleRequest [("webroot/mystery", FSEntry.file [1, 2])]
        "GET /mystery HTTP/1.1" = Except.ok not_implemented :=
  unknown_media_type_gives_501 [("webroot/mystery", FSEntry.file [1, 2])]
    "GET /mystery HTTP/1.1" "GET" "/mystery" "HTTP/1.1" [] [1, 2]
    rfl (by decide) (by decide) (by decide)

/-- C7: a URI whose resolved filesystem path does not exist makes
`resolve_uri` signal not-found (`NameError`, with no content returned),
and the connection handler answers 404 Not Found. -/
theorem missing_path_gives_404 (fs : FileSystem) (req : String)
    (m u v : String) (hdrs : List (String × String))
    (hp : parse_request req = Except.ok ⟨some m, some u, some v, hdrs⟩)
    (hm : m ≠ "")
    (hf : fsLookup fs (effectiveUri u) = none) :
    resolve_uri fs u = Except.error PyExc.nameError ∧
    handleRequest fs req = Except.ok response_not_found := by
  have h1 : resolve_uri fs u = Except.error PyExc.nameError := by
    simp only [resolve_uri, hf]
  have hms : pyTruthyStr (some m) = true := by
    have hie : m.isEmpty = false := by
      cases h : m.isEmpty with
      | false => rfl
      | true => exact absurd ((String.isEmpty_iff m).mp h) hm
    simp [pyTruthyStr, hie]
  refine ⟨h1, ?_⟩
  simp [handleRequest, hp, hms, h1]

/-- C7, witness: requesting `/missing.txt` on the empty filesystem
signals not-found and produces the 404 response. -/
theorem missing_path_gives_404_witness :
    resolve_uri [] "/missing.txt" = Except.error PyExc.nameError ∧
    handleRequest [] "GET /missing.txt HTTP/1.1" =
      Except.ok response_not_found :=
  missing_path_gives_404 [] "GET /missing.txt HTTP/1.1" "GET"
    "/missing.txt" "HTTP/1.1" [] rfl (by decide) (by decide)

/-- C8: for a URI mapping to an existing file guessed as `image/png`,
composing the 200 builder with the resolver gives a response whose
body — the bytes after the first blank-line separator — equals the
file's on-disk contents byte-for-byte. -/
theorem png_roundtrip_body (fs : FileSystem) (u : String)
    (content : List Nat)
    (hf : fsLookup fs (effectiveUri u) = some (FSEntry.file content))
    (hg : guess_type (effectiveUri u) = some "image/png") :
    resolve_uri fs u =
      Except.ok (some content, some (strBytes "image/png")) ∧
    dropThroughBlank (response_ok content (strBytes "image/png")) =
      content := by
  constructor
  · simp only [resolve_uri, hf, hg]
    rw [show splitSlash "image/png" = ["image", "png"] from by decide]
    simp
  · exact dropThroughBlank_response_ok_png content

/-- C8, witness: a PNG file whose bytes contain the blank-line pattern
round-trips through resolve and the 200 builder. -/
theorem png_roundtrip_body_witness :
    resolve_uri [("webroot/sample.png", FSEntry.file [137, 13, 10, 13, 10, 26])]
        "/sample.png" =
      Except.ok (some [137, 13, 10, 13, 10, 26], some (strBytes "image/png")) ∧
    dropThroughBlank
        (response_ok [137, 13, 10, 13, 10, 26] (strBytes "image/png")) =
      [137, 13, 10, 13, 10, 26] :=
  png_roundtrip_body
    [("webroot/sample.png", FSEntry.file [137, 13, 10, 13, 10, 26])]
    "/sample.png" [137, 13, 10, 13, 10, 26] (by decide) (by decide)

end HttpSrv
